import Mathlib

/-!
Shallow embedding of the sparse fleet-orchestration code (Go) in Lean 4.

Float64 arithmetic is modelled by exact rational arithmetic (`ℚ`); the
transcendental helpers the code calls (`math.Sqrt`, `math.Cos`, `math.Sin`
and the golden-angle constant) are passed as explicit function parameters,
so every definition stays computable and the theorems quantify over them.
Non-finite float values (NaN / ±Inf), which matter only for the spawn
validation path, are modelled by a dedicated `FloatVal` type.
-/

namespace Sparse

/-- A 3-D vector with exact rational coordinates (models `[]float64` of length 3). -/
structure Vec3 where
  x : ℚ
  y : ℚ
  z : ℚ
deriving DecidableEq, Repr

/-- Squared Euclidean distance, exactly as the Go code computes it before
calling `math.Sqrt`: componentwise differences, squared and summed. -/
def distSq (a b : Vec3) : ℚ :=
  (a.x - b.x) * (a.x - b.x) + (a.y - b.y) * (a.y - b.y) + (a.z - b.z) * (a.z - b.z)

/-- A named cube of a construct template (`Cube` in engine.go, with the
position's three entries made explicit). -/
structure CubeQ where
  name : String
  position : Vec3
deriving DecidableEq, Repr

/-- Sum of one position component over a cube list (the accumulation loops
`centroid[k] += cube.Position[k]` in part_000). -/
def sumComp (f : CubeQ → ℚ) (cubes : List CubeQ) : ℚ :=
  (cubes.map f).sum

/-- The template centroid: componentwise sum divided by the cube count
(part_000, `Construct.Spawn` and `SpawnMultipleConstructs`). -/
def centroid (cubes : List CubeQ) : Vec3 :=
  { x := sumComp (fun c => c.position.x) cubes / (cubes.length : ℚ)
    y := sumComp (fun c => c.position.y) cubes / (cubes.length : ℚ)
    z := sumComp (fun c => c.position.z) cubes / (cubes.length : ℚ) }

/-- `Construct.Spawn`'s position adjustment: each cube is moved so that its
offset from the template centroid is kept, relative to the orbit position. -/
def adjustCubes (orbitPosition : Vec3) (cubes : List CubeQ) : List CubeQ :=
  cubes.map fun c =>
    { name := c.name
      position :=
        { x := orbitPosition.x + (c.position.x - (centroid cubes).x)
          y := orbitPosition.y + (c.position.y - (centroid cubes).y)
          z := orbitPosition.z + (c.position.z - (centroid cubes).z) } }

/-- Bounding radius of a template (`SpawnMultipleConstructs`): the running
maximum of the centroid-to-part distances, `sqrtF` standing for `math.Sqrt`
applied to the squared distance. -/
def maxDistance (sqrtF : ℚ → ℚ) (cubes : List CubeQ) : ℚ :=
  cubes.foldl
    (fun acc c =>
      let d := sqrtF (distSq c.position (centroid cubes))
      if d > acc then d else acc)
    0

/-- Squared magnitude of a vector (`offset[0]*offset[0] + ...`). -/
def normSq (v : Vec3) : ℚ := v.x * v.x + v.y * v.y + v.z * v.z

/-- The orbit radius computed by `SpawnMultipleConstructs`: magnitude of the
offset, replaced by twice the bounding radius when it is zero, then grown by
the bounding radius. -/
def orbitRadius (sqrtF : ℚ → ℚ) (cubes : List CubeQ) (offset : Vec3) : ℚ :=
  let maxD := maxDistance sqrtF cubes
  let radius := sqrtF (normSq offset)
  let radius' := if radius = 0 then maxD * 2 else radius
  radius' + maxD

/-- The minimum-separation threshold of `SpawnMultipleConstructs`:
`minDistance := maxDistance * 4`. -/
def minDistanceOf (sqrtF : ℚ → ℚ) (cubes : List CubeQ) : ℚ :=
  maxDistance sqrtF cubes * 4

/-- The orbit-radius formula as the spec sentence states it:
`max(‖offset‖, 2 × bounding radius) + bounding radius`. -/
def specOrbitRadius (sqrtF : ℚ → ℚ) (cubes : List CubeQ) (offset : Vec3) : ℚ :=
  max (sqrtF (normSq offset)) (2 * maxDistance sqrtF cubes) + maxDistance sqrtF cubes

/-- The orbit-radius formula the code actually implements, written directly
on the offset magnitude `m` and bounding radius `br`. -/
def amendedOrbitRadius (m br : ℚ) : ℚ :=
  (if m = 0 then br * 2 else m) + br

/-- Largest `k` below the bound with `k * k ≤ n` (structural recursion, so
concrete instances evaluate). -/
def natSqrtAux (n : Nat) : Nat → Nat
  | 0 => 0
  | k + 1 => if (k + 1) * (k + 1) ≤ n then k + 1 else natSqrtAux n k

/-- Integer square root by downward search: `⌊√n⌋` for every `n`. -/
def natSqrtLin (n : Nat) : Nat := natSqrtAux n n

/-- A rational square root for concrete evaluations: exact whenever
numerator and denominator are perfect squares (all inputs used below are). -/
def ratSqrt (q : ℚ) : ℚ :=
  (natSqrtLin q.num.toNat : ℚ) / (natSqrtLin q.den : ℚ)

/-- `fibonacciSphere` from helper.go: `n` points on a sphere by the
golden-angle construction, with the explicit `n = 0` and `n = 1` special
cases. `sqrtF`, `cosF`, `sinF` stand for the float library functions and
`phi` for the golden-angle constant `π(3 − √5)`. -/
def fibonacciSphere (sqrtF cosF sinF : ℚ → ℚ) (phi : ℚ)
    (n : Nat) (radius : ℚ) (center : Vec3) : List Vec3 :=
  if n = 0 then []
  else if n = 1 then
    [{ x := center.x + radius, y := center.y, z := center.z }]
  else
    (List.range n).map fun (i : Nat) =>
      let y : ℚ := 1 - ((i : ℚ) / ((n : ℚ) - 1)) * 2
      let r : ℚ := sqrtF (1 - y * y)
      let theta : ℚ := phi * (i : ℚ)
      { x := center.x + cosF theta * r * radius
        y := center.y + y * radius
        z := center.z + sinF theta * r * radius }

/-- The greedy overlap filter inlined in `SpawnMultipleConstructs`
(part_000): a candidate is dropped when its distance to some already-kept
position is below `minD`, otherwise kept and added to the used list. -/
def filterAux (sqrtF : ℚ → ℚ) (minD : ℚ) (used : List Vec3) : List Vec3 → List Vec3
  | [] => []
  | pos :: rest =>
    if used.any (fun usedPos => sqrtF (distSq pos usedPos) < minD) then
      filterAux sqrtF minD used rest
    else
      pos :: filterAux sqrtF minD (used ++ [pos]) rest

/-- `FilterNonOverlapping`: the greedy filter started with an empty used list. -/
def filterNonOverlapping (sqrtF : ℚ → ℚ) (minD : ℚ) (candidates : List Vec3) : List Vec3 :=
  filterAux sqrtF minD [] candidates

/-- Two positions are far apart when the (sqrt-mediated) distance between
them is not below the threshold — precisely the negation of the code's
`distance < minDistance` test, argument order matching the source. -/
def FarFrom (sqrtF : ℚ → ℚ) (minD : ℚ) (a b : Vec3) : Prop :=
  ¬ sqrtF (distSq b a) < minD

/-! ### Joint link recording (`linkCubeChains` / `linkCubeChainsWithConfig`) -/

/-- A recorded joint link (`CubeLink` in engine.go). -/
structure CubeLink where
  jointName : String
  cubeA : String
  cubeB : String
deriving DecidableEq, Repr

/-- The deterministic joint name `joint_<jointType>_<partA>_<partB>`
(`fmt.Sprintf("joint_%s_%s_%s", jointType, cubeA, cubeB)`). -/
def jointNameOf (jointType cubeA cubeB : String) : String :=
  "joint_" ++ jointType ++ "_" ++ cubeA ++ "_" ++ cubeB

/-- The inner recording loop of `linkCubeChains`: one `CubeLink` per
consecutive pair of one chain, in order. -/
def chainLinks (jointType : String) : List String → List CubeLink
  | cubeA :: cubeB :: rest =>
    { jointName := jointNameOf jointType cubeA cubeB, cubeA := cubeA, cubeB := cubeB }
      :: chainLinks jointType (cubeB :: rest)
  | _ => []

/-- The outer recording loop of `linkCubeChains`: links of all chains,
appended in chain order. -/
def recordLinks (jointType : String) : List (List String) → List CubeLink
  | [] => []
  | chain :: rest => chainLinks jointType chain ++ recordLinks jointType rest

/-! ### Template loading (`Construct.LoadConfigFromJSON`) -/

/-- A parsed construct template (`ConstructConfig`), with the joint
parameters kept as an association list. -/
structure ConstructConfig where
  cubes : List CubeQ
  chains : List (List String)
  jointType : String
  jointParams : List (String × ℚ)
deriving DecidableEq, Repr

/-- The renaming `LoadConfigFromJSON` performs after parsing: every cube
name and every chain member is prefixed with `unitName ++ "_"`; positions
and joint data are left untouched. -/
def applyUnitName (unitName : String) (config : ConstructConfig) : ConstructConfig :=
  { cubes := config.cubes.map fun c => { c with name := unitName ++ "_" ++ c.name }
    chains := config.chains.map fun chain => chain.map fun n => unitName ++ "_" ++ n
    jointType := config.jointType
    jointParams := config.jointParams }

/-- The part names of a loaded configuration. -/
def partNames (config : ConstructConfig) : List String :=
  config.cubes.map fun c => c.name

/-- All chain member names of a loaded configuration. -/
def chainMemberNames (config : ConstructConfig) : List String :=
  config.chains.flatten

/-! ### Float validation and the per-cube spawn path (`spawnCubeWithConfig`) -/

/-- A float64 value as far as the validation path cares: a finite rational,
NaN, or a signed infinity. -/
inductive FloatVal where
  | finite (q : ℚ)
  | nan
  | posInf
  | negInf
deriving DecidableEq, Repr

/-- `math.IsNaN`. -/
def FloatVal.isNaN : FloatVal → Bool
  | .nan => true
  | _ => false

/-- `math.IsInf(·, 0)` (either sign). -/
def FloatVal.isInf : FloatVal → Bool
  | .posInf => true
  | .negInf => true
  | _ => false

/-- A cube as the spawn path sees it: name plus float coordinates. -/
structure CubeF where
  name : String
  position : List FloatVal
deriving DecidableEq, Repr

/-- The validation loop of `spawnCubeWithConfig`: some coordinate is NaN or
infinite. -/
def hasNonFinite (position : List FloatVal) : Bool :=
  position.any fun coord => coord.isNaN || coord.isInf

/-- One observable step of the per-cube spawn path, in the order the code
performs them. -/
inductive SpawnStep where
  | dial
  | authWrite
  | authRead
  | sendSpawn (cubeName : String)
deriving DecidableEq, Repr

/-- Whether a step sends a `spawn_cube` command. -/
def SpawnStep.isSend : SpawnStep → Bool
  | .sendSpawn _ => true
  | _ => false

/-- Outcome flags for the network operations `spawnCubeWithConfig` performs
before it reaches the validation check. -/
structure NetEnv where
  dialOk : Bool
  authWriteOk : Bool
  authReadOk : Bool
deriving DecidableEq, Repr

/-- `spawnCubeWithConfig` as a trace: the list of steps taken (each early
`return` cuts the trace) and the cube-registry entries appended. The
non-finite check sits after dial, auth write and auth read, and only the
surviving cubes send `spawn_cube` and record `<name>_BASE`. -/
def spawnCubeTrace (env : NetEnv) (cube : CubeF) : List SpawnStep × List String :=
  if !env.dialOk then ([.dial], [])
  else if !env.authWriteOk then ([.dial, .authWrite], [])
  else if !env.authReadOk then ([.dial, .authWrite, .authRead], [])
  else if hasNonFinite cube.position then ([.dial, .authWrite, .authRead], [])
  else ([.dial, .authWrite, .authRead, .sendSpawn cube.name], [cube.name ++ "_BASE"])

/-- The registry entries appended by spawning a list of cubes (the fan-out
in `Construct.Spawn`; each cube's goroutine is independent). -/
def spawnAllDeltas (env : NetEnv) : List CubeF → List String
  | [] => []
  | cube :: rest => (spawnCubeTrace env cube).2 ++ spawnAllDeltas env rest

/-! ### The fleet pipeline (`SpawnMultipleConstructs`) -/

/-- The fleet-level failures `SpawnMultipleConstructs` returns before any
spawning starts. -/
inductive FleetError where
  | positionCountMismatch (got expected : Nat)
  | notEnoughPositions (got need : Nat)
deriving DecidableEq, Repr

/-- The placement-computation prelude of `SpawnMultipleConstructs`: orbit
radius from the loaded template and offset, candidate generation via
`fibonacciSphere`, the position-count check, the greedy overlap filter with
`minDistance = maxDistance * 4`, and the capacity check. Spawn commands are
only issued in the `ok` branch, which carries the surviving placements. -/
def fleetPlacements (sqrtF cosF sinF : ℚ → ℚ) (phi : ℚ)
    (numConstructs : Nat) (cubes : List CubeQ)
    (planetCenter offset : Vec3) : Except FleetError (List Vec3) :=
  let radius := orbitRadius sqrtF cubes offset
  let positions := fibonacciSphere sqrtF cosF sinF phi numConstructs radius planetCenter
  if positions.length ≠ numConstructs then
    .error (.positionCountMismatch positions.length numConstructs)
  else
    let minDistance := maxDistance sqrtF cubes * 4
    let availablePositions := filterNonOverlapping sqrtF minDistance positions
    if availablePositions.length < numConstructs then
      .error (.notEnoughPositions availablePositions.length numConstructs)
    else
      .ok availablePositions

/-- `SpawnMultipleConstructs` as a whole: on a placement error nothing is
spawned and the error is returned; otherwise one spawn per construct is
issued at its assigned position. -/
def fleetSpawnRun (sqrtF cosF sinF : ℚ → ℚ) (phi : ℚ)
    (numConstructs : Nat) (cubes : List CubeQ)
    (planetCenter offset : Vec3) : List Vec3 × Option FleetError :=
  match fleetPlacements sqrtF cosF sinF phi numConstructs cubes planetCenter offset with
  | .error e => ([], some e)
  | .ok availablePositions => (availablePositions.take numConstructs, none)

/-! ### The delimited read loop (`readResponse` in engine.go)

`readResponse` repeatedly calls `bufio.Reader.ReadString('-')` under a
3-second read deadline.  A successful `ReadString('-')` call yields the
bytes up to and including the first `'-'`; a deadline expiry or closed
connection yields an error, on which the loop breaks discarding that call's
partial data.  The stream is therefore modelled as the finite list of the
results those calls would produce: dash-terminated segments, with a terminal
error event guaranteed by the read deadline. -/

/-- One result of a `ReadString('-')` call: a segment (ending at the first
dash) or a read error (deadline expiry / closed connection). -/
inductive ReadEv where
  | seg (s : List Char)
  | readErr
deriving DecidableEq, Repr

/-- Whether the second list starts with the first (the pattern). -/
def listStarts : List Char → List Char → Bool
  | [], _ => true
  | _ :: _, [] => false
  | p :: ps, c :: cs => p = c && listStarts ps cs

/-- Whether a list contains the pattern as a contiguous sublist
(`strings.Contains`). -/
def listHasSub (pattern : List Char) : List Char → Bool
  | [] => pattern.isEmpty
  | c :: rest => listStarts pattern (c :: rest) || listHasSub pattern rest

/-- Unit id `u`, extended by the underscore separator, is a leading
substring of unit id `v` extended the same way.  Two prefixed names
`u ++ "_" ++ n` and `v ++ "_" ++ m` can only coincide when this holds in
one direction or the other. -/
def extendedLeads (u v : String) : Bool :=
  listStarts (u.data ++ ['_']) (v.data ++ ['_'])

/-- The delimiter sentinel `<???DONE???---` as characters. -/
def delimChars : List Char := "<???DONE???---".toList

/-- The accumulation loop of `readResponse`: append each segment to the
builder, stop when a segment contains the delimiter or when a read error
occurs (the erroring call's partial data is discarded). -/
def readLoop : List ReadEv → List Char
  | [] => []
  | .readErr :: _ => []
  | .seg s :: rest =>
    if listHasSub delimChars s then s
    else s ++ readLoop rest

/-- `strings.ReplaceAll(s, pattern, "")`, fuelled by the input length
(each step consumes at least one character when the pattern is nonempty). -/
def removeAllAux (pattern : List Char) : Nat → List Char → List Char
  | 0, _ => []
  | _, [] => []
  | fuel + 1, c :: rest =>
    if listStarts pattern (c :: rest) then
      removeAllAux pattern fuel (List.drop (pattern.length - 1) rest)
    else
      c :: removeAllAux pattern fuel rest

/-- `strings.ReplaceAll(s, pattern, "")`. -/
def removeAll (pattern s : List Char) : List Char :=
  removeAllAux pattern s.length s

/-- ASCII whitespace (the fragment of `unicode.IsSpace` these payloads use). -/
def isSpaceChar (c : Char) : Bool :=
  c = ' ' || c = '\t' || c = '\n' || c = '\r'

/-- `strings.TrimSpace`. -/
def trimSpace (s : List Char) : List Char :=
  ((s.dropWhile isSpaceChar).reverse.dropWhile isSpaceChar).reverse

/-- `readResponse`: run the loop, strip every delimiter occurrence, trim
whitespace, and return the payload together with the error value — which is
the literal `nil` on the function's only return path. -/
def readResponse (events : List ReadEv) : List Char × Option String :=
  (trimSpace (removeAll delimChars (readLoop events)), none)

/-- The number of occurrences of a character in a list. -/
def countChar (c : Char) (s : List Char) : Nat :=
  (s.filter fun d => d = c).length

/-- All segments of an event stream are plausible `ReadString('-')` results:
each contains at most one dash (a successful call stops at the first one). -/
def segsOk (events : List ReadEv) : Bool :=
  events.all fun ev =>
    match ev with
    | .seg s => countChar '-' s ≤ 1
    | .readErr => true

/-- What the loop would do with the sentinel check removed: concatenate
every segment up to the first read error. -/
def readAllUntilErr : List ReadEv → List Char
  | [] => []
  | .readErr :: _ => []
  | .seg s :: rest => s ++ readAllUntilErr rest

/-- The template used in the spec's concrete example: farthest part at
distance 5 from the centroid (bounding radius 5). -/
def radius5Template : List CubeQ :=
  [{ name := "a", position := { x := 5, y := 0, z := 0 } },
   { name := "b", position := { x := -5, y := 0, z := 0 } }]

/-- A template whose part names collide after unit-id prefixing when one
unit id extends the other across the separator. -/
def collisionTemplate : ConstructConfig :=
  { cubes := [{ name := "x", position := { x := 0, y := 0, z := 0 } },
              { name := "a_x", position := { x := 1, y := 0, z := 0 } }]
    chains := [["x", "a_x"]]
    jointType := "hinge"
    jointParams := [] }

/-- All network operations succeed. -/
def envOk : NetEnv := { dialOk := true, authWriteOk := true, authReadOk := true }

/-- A cube whose first coordinate is NaN. -/
def nanCube : CubeF :=
  { name := "bad", position := [.nan, .finite 0, .finite 0] }

/-- The event stream of a peer that sends `ok` followed by the full sentinel
(split at dashes, as `ReadString('-')` delivers it), keeps the connection
open, sends `X-`, and then the read deadline expires. -/
def failingEvents : List ReadEv :=
  [.seg "ok<???DONE???-".toList, .seg "-".toList, .seg "-".toList,
   .seg "X-".toList, .readErr]

/-! ## Theorems -/

theorem distSq_comm (a b : Vec3) : distSq a b = distSq b a := by
  unfold distSq; ring

theorem ratSqrt_zero : ratSqrt 0 = 0 := by
  rw [ratSqrt, show (0 : ℚ).num = 0 from rfl, show (0 : ℚ).den = 1 from rfl]
  norm_num [show natSqrtLin 0 = 0 from by decide,
    show natSqrtLin 1 = 1 from by decide]

theorem ratSqrt_one : ratSqrt 1 = 1 := by
  rw [ratSqrt, show (1 : ℚ).num = 1 from rfl, show (1 : ℚ).den = 1 from rfl]
  norm_num [show natSqrtLin (Int.toNat 1) = 1 from by decide,
    show natSqrtLin 1 = 1 from by decide]

theorem ratSqrt_sixteen : ratSqrt 16 = 4 := by
  rw [ratSqrt, show (16 : ℚ).num = 16 from rfl, show (16 : ℚ).den = 1 from rfl]
  norm_num [show natSqrtLin (Int.toNat 16) = 4 from by decide,
    show natSqrtLin 1 = 1 from by decide]

theorem ratSqrt_twentyfive : ratSqrt 25 = 5 := by
  rw [ratSqrt, show (25 : ℚ).num = 25 from rfl, show (25 : ℚ).den = 1 from rfl]
  norm_num [show natSqrtLin (Int.toNat 25) = 5 from by decide,
    show natSqrtLin 1 = 1 from by decide]

theorem ratSqrt_onefortyfour : ratSqrt 144 = 12 := by
  rw [ratSqrt, show (144 : ℚ).num = 144 from rfl, show (144 : ℚ).den = 1 from rfl]
  norm_num [show natSqrtLin (Int.toNat 144) = 12 from by decide,
    show natSqrtLin 1 = 1 from by decide]

theorem centroid_radius5 : centroid radius5Template = { x := 0, y := 0, z := 0 } := by
  simp [centroid, radius5Template, sumComp]

theorem maxDistance_radius5 : maxDistance ratSqrt radius5Template = 5 := by
  simp only [maxDistance, centroid_radius5]
  simp only [radius5Template, List.foldl]
  norm_num [distSq, ratSqrt_twentyfive]

theorem sum_map_const_add_sub (l : List CubeQ) (g : CubeQ → ℚ) (a b : ℚ) :
    ((l.map fun c => a + (g c - b)).sum) = l.length * a + (l.map g).sum - l.length * b := by
  induction l with
  | nil => simp
  | cons c t ih =>
    simp only [List.map_cons, List.sum_cons, ih, List.length_cons]
    push_cast
    ring

theorem filterAux_sublist (sqrtF : ℚ → ℚ) (minD : ℚ) :
    ∀ (cands used : List Vec3), (filterAux sqrtF minD used cands).Sublist cands := by
  intro cands
  induction cands with
  | nil => intro used; simp [filterAux]
  | cons pos rest ih =>
    intro used
    simp only [filterAux]
    split
    · exact (ih used).cons pos
    · exact (ih (used ++ [pos])).cons₂ pos

theorem filterAux_mem_far (sqrtF : ℚ → ℚ) (minD : ℚ) :
    ∀ (cands used : List Vec3) (x : Vec3), x ∈ filterAux sqrtF minD used cands →
      ∀ u ∈ used, ¬ sqrtF (distSq x u) < minD := by
  intro cands
  induction cands with
  | nil => intro used x hx; simp [filterAux] at hx
  | cons pos rest ih =>
    intro used x hx u hu
    simp only [filterAux] at hx
    split at hx
    · exact ih used x hx u hu
    · rcases List.mem_cons.mp hx with hx | hx
      · subst hx
        rename_i hfalse
        have hall := (List.any_eq_true).not.mp hfalse
        push_neg at hall
        have := hall
        by_contra hlt
        exact hfalse (List.any_eq_true.mpr ⟨u, hu, by simpa using hlt⟩)
      · exact ih (used ++ [pos]) x hx u (List.mem_append_left _ hu)

theorem filterAux_pairwise (sqrtF : ℚ → ℚ) (minD : ℚ) :
    ∀ (cands used : List Vec3),
      List.Pairwise (FarFrom sqrtF minD) (filterAux sqrtF minD used cands) := by
  intro cands
  induction cands with
  | nil => intro used; simp [filterAux]
  | cons pos rest ih =>
    intro used
    simp only [filterAux]
    split
    · exact ih used
    · refine List.Pairwise.cons ?_ (ih (used ++ [pos]))
      intro b hb
      exact filterAux_mem_far sqrtF minD rest (used ++ [pos]) b hb pos (by simp)

theorem filterAux_eq_self (sqrtF : ℚ → ℚ) (minD : ℚ) :
    ∀ (cands used : List Vec3),
      List.Pairwise (FarFrom sqrtF minD) cands →
      (∀ p ∈ cands, ∀ u ∈ used, ¬ sqrtF (distSq p u) < minD) →
      filterAux sqrtF minD used cands = cands := by
  intro cands
  induction cands with
  | nil => intro used _ _; rfl
  | cons pos rest ih =>
    intro used hpw hfar
    have hany : (used.any fun usedPos => decide (sqrtF (distSq pos usedPos) < minD)) = false := by
      rw [List.any_eq_false]
      intro u hu
      simpa using hfar pos (List.mem_cons_self pos rest) u hu
    have hrest : filterAux sqrtF minD (used ++ [pos]) rest = rest := by
      refine ih (used ++ [pos]) (List.Pairwise.of_cons hpw) ?_
      intro p hp u hu
      rcases List.mem_append.mp hu with hu | hu
      · exact hfar p (List.mem_cons_of_mem pos hp) u hu
      · have : u = pos := by simpa using hu
        subst this
        exact (List.pairwise_cons.mp hpw).1 p hp
    simp only [filterAux, hany]
    simp [hrest]

/-- C4: `fibonacciSphere` (helper.go) returns the empty list for `n = 0` and
the single point `center + (radius, 0, 0)` for `n = 1`, whatever the sqrt,
cosine, sine and golden-angle parameters are — i.e. by the explicit special
cases, never through the general formula. -/
theorem claim_C4_distribute_base_cases (sqrtF cosF sinF : ℚ → ℚ) (phi : ℚ)
    (radius : ℚ) (center : Vec3) :
    fibonacciSphere sqrtF cosF sinF phi 0 radius center = []
  ∧ fibonacciSphere sqrtF cosF sinF phi 1 radius center =
      [{ x := center.x + radius, y := center.y, z := center.z }] := by
  constructor <;> simp [fibonacciSphere]

theorem vec3_ext (a b : Vec3) (hx : a.x = b.x) (hy : a.y = b.y) (hz : a.z = b.z) :
    a = b := by
  cases a; cases b; simp_all

/-- C5: spawning a nonempty template at a placement recentres it exactly:
the centroid of the adjusted cube positions equals the orbit position. -/
theorem claim_C5_spawn_centroid (orbitPosition : Vec3) (cubes : List CubeQ)
    (h : cubes ≠ []) :
    centroid (adjustCubes orbitPosition cubes) = orbitPosition := by
  have hn0 : cubes.length ≠ 0 := by simpa [List.length_eq_zero] using h
  have hn : (cubes.length : ℚ) ≠ 0 := Nat.cast_ne_zero.mpr hn0
  have hlen : (adjustCubes orbitPosition cubes).length = cubes.length := by
    simp [adjustCubes]
  have hx : sumComp (fun c => c.position.x) (adjustCubes orbitPosition cubes)
      = cubes.length * orbitPosition.x + sumComp (fun c => c.position.x) cubes
        - cubes.length * (centroid cubes).x := by
    unfold sumComp adjustCubes
    rw [List.map_map]
    exact sum_map_const_add_sub cubes (fun c => c.position.x) orbitPosition.x (centroid cubes).x
  have hy : sumComp (fun c => c.position.y) (adjustCubes orbitPosition cubes)
      = cubes.length * orbitPosition.y + sumComp (fun c => c.position.y) cubes
        - cubes.length * (centroid cubes).y := by
    unfold sumComp adjustCubes
    rw [List.map_map]
    exact sum_map_const_add_sub cubes (fun c => c.position.y) orbitPosition.y (centroid cubes).y
  have hz : sumComp (fun c => c.position.z) (adjustCubes orbitPosition cubes)
      = cubes.length * orbitPosition.z + sumComp (fun c => c.position.z) cubes
        - cubes.length * (centroid cubes).z := by
    unfold sumComp adjustCubes
    rw [List.map_map]
    exact sum_map_const_add_sub cubes (fun c => c.position.z) orbitPosition.z (centroid cubes).z
  refine vec3_ext _ _ ?_ ?_ ?_
  · show sumComp (fun c => c.position.x) (adjustCubes orbitPosition cubes)
      / ((adjustCubes orbitPosition cubes).length : ℚ) = orbitPosition.x
    rw [hlen, hx]
    have hc : (centroid cubes).x = sumComp (fun c => c.position.x) cubes / (cubes.length : ℚ) := rfl
    rw [hc]
    field_simp
  · show sumComp (fun c => c.position.y) (adjustCubes orbitPosition cubes)
      / ((adjustCubes orbitPosition cubes).length : ℚ) = orbitPosition.y
    rw [hlen, hy]
    have hc : (centroid cubes).y = sumComp (fun c => c.position.y) cubes / (cubes.length : ℚ) := rfl
    rw [hc]
    field_simp
  · show sumComp (fun c => c.position.z) (adjustCubes orbitPosition cubes)
      / ((adjustCubes orbitPosition cubes).length : ℚ) = orbitPosition.z
    rw [hlen, hz]
    have hc : (centroid cubes).z = sumComp (fun c => c.position.z) cubes / (cubes.length : ℚ) := rfl
    rw [hc]
    field_simp

/-- C5 witness: a concrete two-cube template placed at `(1, 2, 3)` has its
adjusted centroid exactly there. -/
theorem claim_C5_spawn_centroid_witness :
    radius5Template ≠ [] ∧
    centroid (adjustCubes { x := 1, y := 2, z := 3 } radius5Template) =
      { x := 1, y := 2, z := 3 } :=
  ⟨by simp [radius5Template],
   claim_C5_spawn_centroid { x := 1, y := 2, z := 3 } radius5Template (by simp [radius5Template])⟩

/-- C6: the greedy overlap filter returns an in-order subsequence of its
input, never keeps two points whose (sqrt-mediated) distance is below
`minD`, and returns the input unchanged whenever no two input points are
that close. -/
theorem claim_C6_filter_non_overlapping (sqrtF : ℚ → ℚ) (minD : ℚ)
    (candidates : List Vec3) :
    (filterNonOverlapping sqrtF minD candidates).Sublist candidates
  ∧ List.Pairwise (FarFrom sqrtF minD) (filterNonOverlapping sqrtF minD candidates)
  ∧ (List.Pairwise (FarFrom sqrtF minD) candidates →
      filterNonOverlapping sqrtF minD candidates = candidates) := by
  refine ⟨filterAux_sublist sqrtF minD candidates [], filterAux_pairwise sqrtF minD candidates [], ?_⟩
  intro hpw
  exact filterAux_eq_self sqrtF minD candidates [] hpw (by simp)

/-- C6 witness: a concrete well-separated input passes through the filter
unchanged. -/
theorem claim_C6_filter_non_overlapping_witness :
    filterNonOverlapping ratSqrt 2
      [{ x := 0, y := 0, z := 0 }, { x := 4, y := 0, z := 0 }] =
      [{ x := 0, y := 0, z := 0 }, { x := 4, y := 0, z := 0 }] :=
  (claim_C6_filter_non_overlapping ratSqrt 2 _).2.2 (by
    refine List.pairwise_cons.mpr ⟨?_, by simp⟩
    intro b hb
    simp only [List.mem_singleton] at hb
    subst hb
    unfold FarFrom
    norm_num [distSq, ratSqrt_sixteen])

theorem fibonacciSphere_length (sqrtF cosF sinF : ℚ → ℚ) (phi : ℚ)
    (n : Nat) (radius : ℚ) (center : Vec3) :
    (fibonacciSphere sqrtF cosF sinF phi n radius center).length = n := by
  unfold fibonacciSphere
  split
  · rename_i h; simp [h]
  · split
    · rename_i h; simp [h]
    · rw [List.length_map, List.length_range]

/-- C7: when fewer placements survive the minimum-distance filter than
constructs were requested, the fleet spawn returns the capacity error with
nothing spawned; and any successful placement computation delivers exactly
the requested number of positions (never silently fewer). -/
theorem claim_C7_capacity_error (sqrtF cosF sinF : ℚ → ℚ) (phi : ℚ)
    (numConstructs : Nat) (cubes : List CubeQ) (planetCenter offset : Vec3) :
    ((filterNonOverlapping sqrtF (maxDistance sqrtF cubes * 4)
        (fibonacciSphere sqrtF cosF sinF phi numConstructs
          (orbitRadius sqrtF cubes offset) planetCenter)).length < numConstructs →
      fleetSpawnRun sqrtF cosF sinF phi numConstructs cubes planetCenter offset =
        ([], some (FleetError.notEnoughPositions
          (filterNonOverlapping sqrtF (maxDistance sqrtF cubes * 4)
            (fibonacciSphere sqrtF cosF sinF phi numConstructs
              (orbitRadius sqrtF cubes offset) planetCenter)).length
          numConstructs)))
  ∧ (∀ ps, fleetPlacements sqrtF cosF sinF phi numConstructs cubes planetCenter offset =
        .ok ps →
      ps.length = numConstructs ∧
      fleetSpawnRun sqrtF cosF sinF phi numConstructs cubes planetCenter offset =
        (ps, none)) := by
  have hlen := fibonacciSphere_length sqrtF cosF sinF phi numConstructs
    (orbitRadius sqrtF cubes offset) planetCenter
  constructor
  · intro hlt
    have hplace : fleetPlacements sqrtF cosF sinF phi numConstructs cubes planetCenter offset =
        .error (.notEnoughPositions
          (filterNonOverlapping sqrtF (maxDistance sqrtF cubes * 4)
            (fibonacciSphere sqrtF cosF sinF phi numConstructs
              (orbitRadius sqrtF cubes offset) planetCenter)).length
          numConstructs) := by
      unfold fleetPlacements
      rw [if_neg (by simp [hlen]), if_pos hlt]
    unfold fleetSpawnRun
    rw [hplace]
  · intro ps hok
    have hlen' : ps.length = numConstructs := by
      unfold fleetPlacements at hok
      rw [if_neg (by simp [hlen])] at hok
      by_cases hc : (filterNonOverlapping sqrtF (maxDistance sqrtF cubes * 4)
          (fibonacciSphere sqrtF cosF sinF phi numConstructs
            (orbitRadius sqrtF cubes offset) planetCenter)).length < numConstructs
      · rw [if_pos hc] at hok
        exact absurd hok (by simp)
      · rw [if_neg hc] at hok
        have hps : filterNonOverlapping sqrtF (maxDistance sqrtF cubes * 4)
            (fibonacciSphere sqrtF cosF sinF phi numConstructs
              (orbitRadius sqrtF cubes offset) planetCenter) = ps := by
          simpa using hok
        have hsub := filterAux_sublist sqrtF (maxDistance sqrtF cubes * 4)
          (fibonacciSphere sqrtF cosF sinF phi numConstructs
            (orbitRadius sqrtF cubes offset) planetCenter) []
        have hle : ps.length ≤ numConstructs := by
          have hll := hsub.length_le
          rw [hlen] at hll
          rw [← hps]
          exact hll
        rw [← hps]
        rw [← hps] at hle
        omega
    refine ⟨hlen', ?_⟩
    unfold fleetSpawnRun
    rw [hok]
    simp [List.take_of_length_le (le_of_eq hlen')]

theorem orbitRadius_r5_offset1 :
    orbitRadius ratSqrt radius5Template { x := 1, y := 0, z := 0 } = 6 := by
  simp only [orbitRadius, maxDistance_radius5]
  norm_num [normSq, ratSqrt_one]

theorem fib_two_poles :
    fibonacciSphere ratSqrt (fun _ => 1) (fun _ => 0) 0 2 6 { x := 0, y := 0, z := 0 } =
      [{ x := 0, y := 6, z := 0 }, { x := 0, y := -6, z := 0 }] := by
  unfold fibonacciSphere
  rw [if_neg (by omega), if_neg (by omega)]
  rw [show List.range 2 = [0, 1] from rfl]
  simp only [List.map_cons, List.map_nil]
  norm_num [ratSqrt_zero]

theorem filter_two_poles :
    filterNonOverlapping ratSqrt (maxDistance ratSqrt radius5Template * 4)
      [{ x := 0, y := 6, z := 0 }, { x := 0, y := -6, z := 0 }] =
      [{ x := 0, y := 6, z := 0 }] := by
  rw [maxDistance_radius5]
  have hd : ratSqrt (distSq { x := 0, y := -6, z := 0 } { x := 0, y := 6, z := 0 }) = 12 := by
    norm_num [distSq, ratSqrt_onefortyfour]
  unfold filterNonOverlapping
  simp [filterAux, hd]
  norm_num

/-- C7 witness: with bounding radius 5 but an offset of magnitude 1 the
orbit shrinks to 6, the two candidate poles end up 12 apart (closer than
the 20 threshold), only one survives, and the fleet spawn of 2 constructs
aborts with the capacity error and an empty spawn list. -/
theorem claim_C7_capacity_error_witness :
    fleetSpawnRun ratSqrt (fun _ => 1) (fun _ => 0) 0 2 radius5Template
      { x := 0, y := 0, z := 0 } { x := 1, y := 0, z := 0 } =
      ([], some (FleetError.notEnoughPositions 1 2)) := by
  have hval : (filterNonOverlapping ratSqrt (maxDistance ratSqrt radius5Template * 4)
      (fibonacciSphere ratSqrt (fun _ => 1) (fun _ => 0) 0 2
        (orbitRadius ratSqrt radius5Template { x := 1, y := 0, z := 0 })
        { x := 0, y := 0, z := 0 })) = [{ x := 0, y := 6, z := 0 }] := by
    rw [orbitRadius_r5_offset1, fib_two_poles, filter_two_poles]
  have h := (claim_C7_capacity_error ratSqrt (fun _ => 1) (fun _ => 0) 0 2 radius5Template
    { x := 0, y := 0, z := 0 } { x := 1, y := 0, z := 0 }).1 (by rw [hval]; norm_num)
  rw [h, hval]
  norm_num

theorem chainLinks_length (jointType : String) :
    ∀ chain, (chainLinks jointType chain).length = chain.length - 1 := by
  intro chain
  induction chain with
  | nil => rfl
  | cons a rest ih =>
    cases rest with
    | nil => rfl
    | cons b r2 =>
      simp only [chainLinks, List.length_cons] at ih ⊢
      omega

theorem chainLinks_zip (jointType : String) :
    ∀ chain, chainLinks jointType chain =
      (chain.zip chain.tail).map fun p =>
        { jointName := jointNameOf jointType p.1 p.2, cubeA := p.1, cubeB := p.2 } := by
  intro chain
  induction chain with
  | nil => rfl
  | cons a rest ih =>
    cases rest with
    | nil => rfl
    | cons b r2 =>
      simp only [chainLinks, List.zip, List.tail, List.map] at ih ⊢
      simp [ih]

/-- C8: the link-recording loop produces exactly `k − 1` `CubeLink` entries
for a chain of `k` names — one per consecutive pair, in order, each named
`joint_<jointType>_<partA>_<partB>` — and a chain shorter than 2 produces
none. -/
theorem claim_C8_chain_link_records (jointType : String) :
    (∀ chain, (chainLinks jointType chain).length = chain.length - 1)
  ∧ (∀ A B C : String, recordLinks jointType [[A, B, C]] =
      [{ jointName := jointNameOf jointType A B, cubeA := A, cubeB := B },
       { jointName := jointNameOf jointType B C, cubeA := B, cubeB := C }])
  ∧ (∀ chain, chain.length < 2 → chainLinks jointType chain = [])
  ∧ (∀ chain, chainLinks jointType chain =
      (chain.zip chain.tail).map fun p =>
        { jointName := jointNameOf jointType p.1 p.2, cubeA := p.1, cubeB := p.2 }) := by
  refine ⟨chainLinks_length jointType, ?_, ?_, chainLinks_zip jointType⟩
  · intro A B C
    simp [recordLinks, chainLinks]
  · intro chain h
    match chain with
    | [] => rfl
    | [a] => rfl
    | a :: b :: r2 => simp at h; omega

/-- C8 witness: a one-element chain records no links. -/
theorem claim_C8_chain_link_records_witness :
    (["solo"] : List String).length < 2 ∧ chainLinks "hinge" ["solo"] = [] :=
  ⟨by decide, (claim_C8_chain_link_records "hinge").2.2.1 ["solo"] (by decide)⟩

/-- C10: `readResponse` returns a `nil` error on its only return path, for
every possible event stream — including deadline expiry mid-message — so
the error value never distinguishes a timed-out partial read from a
complete message. -/
theorem claim_C10_read_error_always_nil (events : List ReadEv) :
    (readResponse events).2 = none := rfl

/-- C1 (amended): the orbit radius is the offset magnitude plus the bounding
radius, except that a zero magnitude is replaced by twice the bounding
radius first; the filter threshold is `4 ×` the bounding radius; and for the
spec's concrete instance (bounding radius 5, zero offset) the orbit radius
is 15 and the threshold 20. -/
theorem claim_C1_orbit_radius_amended :
    (∀ (sqrtF : ℚ → ℚ) (cubes : List CubeQ) (offset : Vec3),
      orbitRadius sqrtF cubes offset =
        amendedOrbitRadius (sqrtF (normSq offset)) (maxDistance sqrtF cubes))
  ∧ (∀ (sqrtF : ℚ → ℚ) (cubes : List CubeQ),
      minDistanceOf sqrtF cubes = 4 * maxDistance sqrtF cubes)
  ∧ orbitRadius ratSqrt radius5Template { x := 0, y := 0, z := 0 } = 15
  ∧ maxDistance ratSqrt radius5Template = 5
  ∧ minDistanceOf ratSqrt radius5Template = 20 := by
  refine ⟨fun sqrtF cubes offset => rfl,
    fun sqrtF cubes => by rw [minDistanceOf]; ring, ?_, maxDistance_radius5, ?_⟩
  · simp only [orbitRadius, maxDistance_radius5]
    norm_num [normSq, ratSqrt_zero]
  · rw [minDistanceOf, maxDistance_radius5]
    norm_num

/-- C1 counterexample: for the bounding-radius-5 template and an offset of
magnitude 1 the code computes orbit radius 6, while the claimed formula
`max(‖offset‖, 2 × bounding radius) + bounding radius` gives 15. -/
theorem claim_C1_orbit_radius_cex :
    orbitRadius ratSqrt radius5Template { x := 1, y := 0, z := 0 } = 6
  ∧ specOrbitRadius ratSqrt radius5Template { x := 1, y := 0, z := 0 } = 15
  ∧ orbitRadius ratSqrt radius5Template { x := 1, y := 0, z := 0 } ≠
      specOrbitRadius ratSqrt radius5Template { x := 1, y := 0, z := 0 } := by
  have h2 : specOrbitRadius ratSqrt radius5Template { x := 1, y := 0, z := 0 } = 15 := by
    simp only [specOrbitRadius, maxDistance_radius5]
    norm_num [normSq, ratSqrt_one, max_def]
  exact ⟨orbitRadius_r5_offset1, h2, by rw [orbitRadius_r5_offset1, h2]; norm_num⟩

/-- C3 (amended): a part with a non-finite coordinate is rejected after the
connection, auth write and auth read, but before the `spawn_cube` command:
its trace contains no send step, it records no registry entry, and sibling
parts of a fan-out are unaffected. -/
theorem claim_C3_nonfinite_amended (env : NetEnv) (cube : CubeF)
    (h : hasNonFinite cube.position = true) :
    ((spawnCubeTrace env cube).1.all fun st => !st.isSend) = true
  ∧ (spawnCubeTrace env cube).2 = []
  ∧ (∀ sibs, spawnAllDeltas env (cube :: sibs) = spawnAllDeltas env sibs) := by
  obtain ⟨d, aw, ar⟩ := env
  cases d <;> cases aw <;> cases ar <;>
    simp [spawnCubeTrace, h, spawnAllDeltas, SpawnStep.isSend]

/-- C3 counterexample: with every network operation succeeding, the NaN cube
is rejected only after dial, auth write and auth read — so network calls do
happen before the rejection, though no spawn command is sent and nothing is
recorded. -/
theorem claim_C3_nonfinite_cex :
    hasNonFinite nanCube.position = true
  ∧ spawnCubeTrace envOk nanCube =
      ([SpawnStep.dial, SpawnStep.authWrite, SpawnStep.authRead], [])
  ∧ (spawnCubeTrace envOk nanCube).1 ≠ []
  ∧ SpawnStep.dial ∈ (spawnCubeTrace envOk nanCube).1 := by
  refine ⟨rfl, rfl,
    by simp [spawnCubeTrace, envOk, nanCube, hasNonFinite, FloatVal.isNaN, FloatVal.isInf], ?_⟩
  simp [spawnCubeTrace, envOk, nanCube, hasNonFinite, FloatVal.isNaN, FloatVal.isInf]

/-- C3 witness: the amended theorem applied to the all-success environment
and the NaN cube. -/
theorem claim_C3_nonfinite_amended_witness :
    hasNonFinite nanCube.position = true ∧ (spawnCubeTrace envOk nanCube).2 = [] :=
  ⟨rfl, (claim_C3_nonfinite_amended envOk nanCube rfl).2.1⟩

theorem string_data_append (a b : String) : (a ++ b).data = a.data ++ b.data := by
  cases a; cases b; rfl

theorem string_data_inj (a b : String) (h : a.data = b.data) : a = b := by
  cases a; cases b; exact congrArg String.mk h

/-- Two decompositions of one list into a leading part and a tail force one
leading part to start with the other. -/
theorem starts_or_starts :
    ∀ (a b t1 t2 : List Char), a ++ t1 = b ++ t2 →
      listStarts a b = true ∨ listStarts b a = true := by
  intro a
  induction a with
  | nil => intro b t1 t2 _; left; rfl
  | cons x xs ih =>
    intro b t1 t2 h
    cases b with
    | nil => right; rfl
    | cons y ys =>
      simp only [List.cons_append, List.cons.injEq] at h
      obtain ⟨hxy, hrest⟩ := h
      subst hxy
      rcases ih ys t1 t2 hrest with hs | hs
      · left; simp [listStarts, hs]
      · right; simp [listStarts, hs]

/-- Two unit-prefixed names can only coincide when one unit id, extended by
the separator, leads the other. -/
theorem unitName_sep_inj (u1 u2 n1 n2 : String)
    (h12 : extendedLeads u1 u2 = false)
    (h21 : extendedLeads u2 u1 = false) :
    u1 ++ "_" ++ n1 ≠ u2 ++ "_" ++ n2 := by
  intro h
  have hd : (u1.data ++ ['_']) ++ n1.data = (u2.data ++ ['_']) ++ n2.data := by
    have hh := congrArg String.data h
    rw [string_data_append, string_data_append, string_data_append, string_data_append] at hh
    simpa using hh
  rcases starts_or_starts (u1.data ++ ['_']) (u2.data ++ ['_']) n1.data n2.data hd with hs | hs
  · simp [extendedLeads, hs] at h12
  · simp [extendedLeads, hs] at h21

/-- C9 (amended): loading one template with two unit ids neither of which,
extended by the underscore separator, is a leading substring of the other
(in particular any two distinct ids of equal length) yields disjoint
part-name and chain-member-name sets; and — unconditionally — the loading
step never touches positions, so any two loads of one template have
identical relative geometry. -/
theorem claim_C9_unit_prefixing_amended (u1 u2 : String) (tmpl : ConstructConfig) :
    (extendedLeads u1 u2 = false → extendedLeads u2 u1 = false →
      (∀ n, n ∈ partNames (applyUnitName u1 tmpl) → n ∉ partNames (applyUnitName u2 tmpl))
      ∧ (∀ n, n ∈ chainMemberNames (applyUnitName u1 tmpl) →
          n ∉ chainMemberNames (applyUnitName u2 tmpl)))
  ∧ ((applyUnitName u1 tmpl).cubes.map fun c => c.position) =
      (tmpl.cubes.map fun c => c.position)
  ∧ ((applyUnitName u2 tmpl).cubes.map fun c => c.position) =
      (tmpl.cubes.map fun c => c.position) := by
  refine ⟨fun h12 h21 => ⟨?_, ?_⟩, ?_, ?_⟩
  · intro n h1 h2
    simp only [partNames, applyUnitName, List.map_map, List.mem_map, Function.comp] at h1 h2
    obtain ⟨c1, _, he1⟩ := h1
    obtain ⟨c2, _, he2⟩ := h2
    exact unitName_sep_inj u1 u2 c1.name c2.name h12 h21 (he1.trans he2.symm)
  · intro n h1 h2
    simp only [chainMemberNames, applyUnitName, List.mem_flatten, List.mem_map] at h1 h2
    obtain ⟨l1, ⟨chain1, _, hl1⟩, hn1⟩ := h1
    obtain ⟨l2, ⟨chain2, _, hl2⟩, hn2⟩ := h2
    subst hl1; subst hl2
    obtain ⟨m1, _, he1⟩ := List.mem_map.mp hn1
    obtain ⟨m2, _, he2⟩ := List.mem_map.mp hn2
    exact unitName_sep_inj u1 u2 m1 m2 h12 h21 (he1.trans he2.symm)
  · simp [applyUnitName, List.map_map, Function.comp]
  · simp [applyUnitName, List.map_map, Function.comp]

/-- C9 counterexample: for the collision template, unit ids `p` and `p_a`
are distinct yet both loads contain the part name `p_a_x` and the chain
member `p_a_x` — the sets are not disjoint. -/
theorem claim_C9_unit_prefixing_cex :
    ("p" : String) ≠ "p_a"
  ∧ "p_a_x" ∈ partNames (applyUnitName "p" collisionTemplate)
  ∧ "p_a_x" ∈ partNames (applyUnitName "p_a" collisionTemplate)
  ∧ "p_a_x" ∈ chainMemberNames (applyUnitName "p" collisionTemplate)
  ∧ "p_a_x" ∈ chainMemberNames (applyUnitName "p_a" collisionTemplate) := by
  refine ⟨by decide, ?_, ?_, ?_, ?_⟩ <;>
    simp [partNames, chainMemberNames, applyUnitName, collisionTemplate]

/-- C9 witness: the amended theorem applied to the unequal-length unit ids
`ab` and `c` — neither of which, extended by the separator, leads the other
— on the collision template. -/
theorem claim_C9_unit_prefixing_amended_witness :
    extendedLeads "ab" "c" = false ∧ extendedLeads "c" "ab" = false
  ∧ ("ab" ++ "_" ++ "x") ∉ partNames (applyUnitName "c" collisionTemplate) :=
  ⟨by decide, by decide,
   ((claim_C9_unit_prefixing_amended "ab" "c" collisionTemplate).1 (by decide) (by decide)).1
     ("ab" ++ "_" ++ "x")
     (by simp [partNames, applyUnitName, collisionTemplate])⟩

theorem countChar_cons (c d : Char) (s : List Char) :
    countChar c (d :: s) = (if d = c then 1 else 0) + countChar c s := by
  by_cases h : d = c
  all_goals simp [countChar, List.filter_cons, h]
  all_goals omega

theorem starts_count_le (c : Char) :
    ∀ (p s : List Char), listStarts p s = true → countChar c p ≤ countChar c s := by
  intro p
  induction p with
  | nil => intro s _; simp [countChar]
  | cons a as ih =>
    intro s hs
    cases s with
    | nil => simp [listStarts] at hs
    | cons b bs =>
      simp only [listStarts, Bool.and_eq_true, decide_eq_true_eq] at hs
      obtain ⟨hab, hrest⟩ := hs
      subst hab
      rw [countChar_cons, countChar_cons]
      have := ih bs hrest
      omega

theorem hasSub_count_le (c : Char) :
    ∀ (s p : List Char), listHasSub p s = true → countChar c p ≤ countChar c s := by
  intro s
  induction s with
  | nil =>
    intro p hp
    simp only [listHasSub] at hp
    rw [List.isEmpty_iff.mp hp]
  | cons d ds ih =>
    intro p hp
    simp only [listHasSub, Bool.or_eq_true] at hp
    rcases hp with hp | hp
    · exact starts_count_le c p (d :: ds) hp
    · have h1 := ih p hp
      rw [countChar_cons]
      omega

theorem delim_dash_count : countChar '-' delimChars = 3 := by decide

/-- A string containing at most one dash — such as any successful
`ReadString('-')` result — can never contain the three-dash sentinel, so
the loop's `strings.Contains(line, delimiter)` break is unreachable. -/
theorem seg_cannot_contain_delim (s : List Char) (h : countChar '-' s ≤ 1) :
    listHasSub delimChars s = false := by
  by_contra hc
  have hc' : listHasSub delimChars s = true := by
    cases hx : listHasSub delimChars s
    · exact absurd hx hc
    · rfl
  have hle := hasSub_count_le '-' s delimChars hc'
  rw [delim_dash_count] at hle
  omega

theorem readLoop_eq_readAll (events : List ReadEv) (h : segsOk events = true) :
    readLoop events = readAllUntilErr events := by
  induction events with
  | nil => rfl
  | cons ev rest ih =>
    cases ev with
    | readErr => rfl
    | seg s =>
      simp only [segsOk, List.all_cons, Bool.and_eq_true] at h
      obtain ⟨h1, h2⟩ := h
      have hcount : countChar '-' s ≤ 1 := by simpa using h1
      have hne := seg_cannot_contain_delim s hcount
      simp only [readLoop, readAllUntilErr, hne]
      simp only [Bool.false_eq_true, if_false]
      rw [ih (by simp only [segsOk]; exact h2)]

/-- C2 (code bug): under any well-formed segment stream, the sentinel check
of `readResponse` never fires — the loop consumes everything up to the read
error — and at the concrete failing stream (payload `ok`, full sentinel,
then `X-` before the deadline) the returned payload is `okX-`, not the `ok`
the claim requires. -/
theorem claim_C2_sentinel_check_dead :
    (∀ events, segsOk events = true → readLoop events = readAllUntilErr events)
  ∧ segsOk failingEvents = true
  ∧ listHasSub delimChars
      ("ok<???DONE???-".toList ++ "-".toList ++ "-".toList) = true
  ∧ (readResponse failingEvents).1 = "okX-".toList
  ∧ (readResponse failingEvents).1 ≠ "ok".toList := by
  exact ⟨readLoop_eq_readAll, by decide, by decide, by decide, by decide⟩

/-- C2 witness: the dead-check lemma applied to the concrete failing
stream. -/
theorem claim_C2_sentinel_check_dead_witness :
    segsOk failingEvents = true ∧ readLoop failingEvents = readAllUntilErr failingEvents :=
  ⟨by decide, claim_C2_sentinel_check_dead.1 failingEvents (by decide)⟩

end Sparse
